import Mathlib

/- Verification development for the Ontario agricultural census dashboard
   (src/ag_dashboard.py).  The core pipeline is embedded shallowly:
   key normalization, wide-to-long census reshaping, boundary loading,
   the choropleth feature builder with its value-to-color ramp, and the
   sidebar variable-selection fallback.  Census values are modelled as
   exact rationals; Python's float-to-int truncation is modelled as
   truncation toward zero. -/

namespace AgDashboard

/-- Characters kept by the regex substitution in normalize_key:
the class A-Z, a-z, 0-9 (the code removes every other character). -/
def isKeyChar (c : Char) : Bool :=
  decide ((65 ≤ c.toNat ∧ c.toNat ≤ 90) ∨ (97 ≤ c.toNat ∧ c.toNat ≤ 122) ∨
    (48 ≤ c.toNat ∧ c.toNat ≤ 57))

/-- ASCII uppercasing of one character, the action of Python str.upper
on the alphanumeric-only remainder left by the regex substitution. -/
def upperChar (c : Char) : Char :=
  if 97 ≤ c.toNat ∧ c.toNat ≤ 122 then Char.ofNat (c.toNat - 32) else c

/-- Embedding of normalize_key (src/ag_dashboard.py lines 41-44):
empty string on a null input, otherwise strip every character outside
A-Za-z0-9 and uppercase the remainder. -/
def normalize_key : Option String → String
  | none => ""
  | some s => String.mk ((s.toList.filter isKeyChar).map upperChar)

/-- One long-format census record, as produced by load_census:
join key, year (absent when the column name had no year suffix),
variable name, and an optional numeric value. -/
structure CensusRecord where
  join_key : String
  year : Option String
  variable_name : String
  value : Option ℚ
  deriving DecidableEq, Repr

/-- One row of the wide-format census table: the identifier column
and the data columns as (column name, optional value) pairs. -/
structure WideRow where
  join_key : Option String
  cols : List (String × Option ℚ)
  deriving DecidableEq, Repr

/-- ASCII decimal digit test, for the year suffix pattern. -/
def isDigitChar (c : Char) : Bool := decide (48 ≤ c.toNat ∧ c.toNat ≤ 57)

/-- Splitting a wide column name on the trailing-year regex used at
src/ag_dashboard.py lines 63-64: when the name ends in an underscore
followed by exactly four digits, return (some year, name without the
suffix); otherwise the extracted year is absent and the variable part
is the whole name. -/
def splitYearSuffix (name : String) : Option String × String :=
  let cs := name.toList
  let n := cs.length
  let suf := cs.drop (n - 5)
  if 5 ≤ n ∧ suf.head? = some '_' ∧ (suf.drop 1).all isDigitChar then
    (some (String.mk (suf.drop 1)), String.mk (cs.take (n - 5)))
  else (none, name)

/-- The long record that the melt step derives from one wide cell. -/
def meltRecord (k : String) (cv : String × Option ℚ) : CensusRecord :=
  { join_key := k
    year := (splitYearSuffix cv.1).1
    variable_name := (splitYearSuffix cv.1).2
    value := cv.2 }

/-- Embedding of load_census (src/ag_dashboard.py lines 53-65):
normalize the identifier column, melt every data column into a long
record, and split each column name on the trailing 4-digit year. -/
def load_census (rows : List WideRow) : List CensusRecord :=
  rows.flatMap fun r => r.cols.map (meltRecord (normalize_key r.join_key))

/-- One feature of the boundary source before key derivation:
a display name and a geometry (opaque to the claims, carried as a tag). -/
structure RawBoundary where
  Municipality_Clean : String
  geometry : Nat
  deriving DecidableEq, Repr

/-- One boundary record after load_shapefile: display name, geometry
and the derived join key. -/
structure BoundaryRecord where
  Municipality_Clean : String
  geometry : Nat
  join_key : String
  deriving DecidableEq, Repr

/-- Embedding of load_shapefile (src/ag_dashboard.py lines 46-51):
attach the normalized display name as the join key. -/
def load_shapefile (rows : List RawBoundary) : List BoundaryRecord :=
  rows.map fun r =>
    { Municipality_Clean := r.Municipality_Clean
      geometry := r.geometry
      join_key := normalize_key (some r.Municipality_Clean) }

/-- The filtered (join_key, value) pairs of src/ag_dashboard.py lines
74-75: census records matching the selected year and variable whose
value is present. -/
def filteredPairs (census : List CensusRecord) (y v : String) : List (String × ℚ) :=
  census.filterMap fun r =>
    if r.year = some y ∧ r.variable_name = v then
      r.value.map fun x => (r.join_key, x)
    else none

/-- Minimum of a list of rationals, none when empty (pandas min over a
possibly empty column). -/
def listMin : List ℚ → Option ℚ
  | [] => none
  | x :: xs => some (xs.foldl min x)

/-- Maximum of a list of rationals, none when empty. -/
def listMax : List ℚ → Option ℚ
  | [] => none
  | x :: xs => some (xs.foldl max x)

/-- Python int() applied to a real number: truncation toward zero. -/
def pyInt (x : ℚ) : ℤ := if 0 ≤ x then ⌊x⌋ else ⌈x⌉

/-- The normalized position of a value in the color ramp
(src/ag_dashboard.py line 81): (v - vmin) / (vmax - vmin) when
vmax > vmin, else 0 — the guarded division. -/
def colorNorm (vmin vmax v : ℚ) : ℚ :=
  if vmax > vmin then (v - vmin) / (vmax - vmin) else 0

/-- Red component of the ramp (line 83): int(255 * (0.3 + 0.7 * norm)). -/
def colorRed (vmin vmax v : ℚ) : ℤ :=
  pyInt (255 * (3 / 10 + 7 / 10 * colorNorm vmin vmax v))

/-- Green component of the ramp (line 84): int(255 * (0.8 - 0.8 * norm)). -/
def colorGreen (vmin vmax v : ℚ) : ℤ :=
  pyInt (255 * (4 / 5 - 4 / 5 * colorNorm vmin vmax v))

/-- Embedding of _make_color (src/ag_dashboard.py lines 80-87):
the RGBA list [red, green, 0, 180]. -/
def _make_color (vmin vmax v : ℚ) : List ℤ :=
  [colorRed vmin vmax v, colorGreen vmin vmax v, 0, 180]

/-- The color the scale assigns at its minimum end (norm = 0). -/
def min_end_color (vmin vmax : ℚ) : List ℤ := _make_color vmin vmax vmin

/-- The color the scale assigns at its maximum end (norm = 1). -/
def max_end_color (vmin vmax : ℚ) : List ℤ := _make_color vmin vmax vmax

/-- Grouping of a reversed digit list into blocks of three with commas,
the effect of Python's thousands format specifier. -/
def commaGroup : List Char → List Char
  | a :: b :: c :: d :: rest => a :: b :: c :: ',' :: commaGroup (d :: rest)
  | l => l

/-- Thousands-grouped rendering of an integer, as in the f-string
format int(row.value) with a comma specifier (line 96). -/
def fmtThousands (n : ℤ) : String :=
  let g := String.mk ((commaGroup (Nat.repr n.natAbs).toList.reverse).reverse)
  if n < 0 then "-" ++ g else g

/-- One output feature of the builder: geometry, display name,
formatted value string, and the RGBA fill color. -/
structure Feature where
  geometry : Nat
  Municipality_Clean : String
  value_fmt : String
  fill_color : List ℤ
  deriving DecidableEq, Repr

/-- The pandas inner merge of boundaries with the filtered pairs on
join_key (line 76), in left-frame order. -/
def joinRows (gdf : List BoundaryRecord) (ps : List (String × ℚ)) :
    List (BoundaryRecord × ℚ) :=
  gdf.flatMap fun b =>
    (ps.filter fun p => p.1 == b.join_key).map fun p => (b, p.2)

/-- The feature built from one joined row (lines 90-99). -/
def mkFeature (vmin vmax : ℚ) (bv : BoundaryRecord × ℚ) : Feature :=
  { geometry := bv.1.geometry
    Municipality_Clean := bv.1.Municipality_Clean
    value_fmt := fmtThousands (pyInt bv.2)
    fill_color := _make_color vmin vmax bv.2 }

/-- Embedding of build_geojson (src/ag_dashboard.py lines 72-100):
filter the long table to the selection, keep present values, inner
merge with the boundaries, and color each joined row by the ramp over
the filtered value range.  When the filtered set is empty the merge is
empty and no color is computed. -/
def build_geojson (gdf : List BoundaryRecord) (census : List CensusRecord)
    (y v : String) : List Feature :=
  let ps := filteredPairs census y v
  match listMin (ps.map Prod.snd), listMax (ps.map Prod.snd) with
  | some vmin, some vmax => (joinRows gdf ps).map (mkFeature vmin vmax)
  | _, _ => []

/-- Embedding of the legend bounds (src/ag_dashboard.py lines 121-123):
min and max over the present values of the selection (pandas min and
max skip absent values). -/
def legend_bounds (census : List CensusRecord) (y v : String) :
    Option ℚ × Option ℚ :=
  let vals := (filteredPairs census y v).map Prod.snd
  (listMin vals, listMax vals)

/-- Code-point comparison of character lists, the lexicographic order
Python's sorted uses on strings. -/
def lexLt : List Char → List Char → Bool
  | [], [] => false
  | [], _ :: _ => true
  | _ :: _, [] => false
  | a :: as, b :: bs =>
    if a.toNat < b.toNat then true
    else if b.toNat < a.toNat then false
    else lexLt as bs

/-- String comparison on code points. -/
def strLt (a b : String) : Bool := lexLt a.toList b.toList

/-- Insertion of a string into an ascending list. -/
def insertSorted (x : String) : List String → List String
  | [] => [x]
  | y :: ys => if strLt y x then y :: insertSorted x ys else x :: y :: ys

/-- Ascending sort of a string list, the effect of Python sorted. -/
def sortStrings (l : List String) : List String := l.foldr insertSorted []

/-- The year choices of the sidebar (line 104): sorted distinct years,
with absent years dropped. -/
def years_list (census : List CensusRecord) : List String :=
  sortStrings (census.filterMap fun r => r.year).dedup

/-- The variable choices for a selected year (line 107): sorted
distinct variable names of the records of that year. -/
def vars_for_year (census : List CensusRecord) (y : String) : List String :=
  sortStrings ((census.filter fun r => r.year = some y).map
    fun r => r.variable_name).dedup

/-- Embedding of the sticky-variable fallback (src/ag_dashboard.py
lines 108-111).  The argument prev is the session state: none when the
key is absent, some none when the stored value is None, some (some x)
when a variable x is stored.  A missing or invalid selection is reset
to the first available variable (none when the list is empty). -/
def select_variable (prev : Option (Option String)) (vars : List String) :
    Option String :=
  let s1 := match prev with
    | none => vars.head?
    | some x => x
  match s1 with
  | some x => if x ∈ vars then some x else vars.head?
  | none => vars.head?

/-- Modelled from the spec: the joinMode configuration choice of
ChoroplethBuilder (section 4.4).  The source file src/ag_dashboard.py
implements only the inner variant; the spec records a second observed
implementation with left semantics. -/
inductive JoinMode where
  | inner : JoinMode
  | left : JoinMode
  deriving DecidableEq, Repr

/-- Modelled from the spec: the distinct no-data sentinel color used
by the left join mode for unmatched divisions.  The spec fixes only
that the sentinel is a distinct color; the blue component 128 keeps it
disjoint from every ramp color, whose blue component is 0. -/
def noDataColor : List ℤ := [128, 128, 128, 180]

/-- Modelled from the spec: the no-data feature the left mode emits for
an unmatched boundary division — literal marker string and sentinel
color. -/
def noDataFeature (b : BoundaryRecord) : Feature :=
  { geometry := b.geometry
    Municipality_Clean := b.Municipality_Clean
    value_fmt := "no data"
    fill_color := noDataColor }

/-- Modelled from the spec: the feature the left mode emits for one
boundary division — colored by the ramp when the division's key has a
matching present value and a value range exists, no-data otherwise. -/
def leftFeature (ps : List (String × ℚ)) (range : Option (ℚ × ℚ))
    (b : BoundaryRecord) : Feature :=
  match range with
  | some (vmin, vmax) =>
    match (ps.filter fun p => p.1 == b.join_key).head? with
    | some p =>
      { geometry := b.geometry
        Municipality_Clean := b.Municipality_Clean
        value_fmt := fmtThousands (pyInt p.2)
        fill_color := _make_color vmin vmax p.2 }
    | none => noDataFeature b
  | none => noDataFeature b

/-- Modelled from the spec: the left join mode of ChoroplethBuilder
(section 4.4), absent from src/ag_dashboard.py.  Every boundary
division is emitted; a division whose key has a matching present value
is colored by the ramp over the filtered value range, an unmatched
division gets the no-data marker and sentinel color.  When no present
values exist, color computation is skipped and every division is
no-data. -/
def build_left (gdf : List BoundaryRecord) (census : List CensusRecord)
    (y v : String) : List Feature :=
  let ps := filteredPairs census y v
  match listMin (ps.map Prod.snd), listMax (ps.map Prod.snd) with
  | some vmin, some vmax => gdf.map (leftFeature ps (some (vmin, vmax)))
  | _, _ => gdf.map (leftFeature ps none)

/-- Modelled from the spec: ChoroplethBuilder.build with the joinMode
configuration choice; inner mode is the source build_geojson, left
mode the spec's other variant. -/
def build_with_mode (mode : JoinMode) (gdf : List BoundaryRecord)
    (census : List CensusRecord) (y v : String) : List Feature :=
  match mode with
  | JoinMode.inner => build_geojson gdf census y v
  | JoinMode.left => build_left gdf census y v

/- ── Helper lemmas on characters and normalization ── -/

theorem charOfNat_toNat {n : Nat} (h1 : 65 ≤ n) (h2 : n ≤ 90) :
    (Char.ofNat n).toNat = n := by
  have hv : n.isValidChar := Or.inl (by omega)
  simp only [Char.ofNat, hv, dif_pos, Char.ofNatAux, Char.toNat]
  rfl

theorem upperChar_eq_of_not_lower {c : Char} (h : ¬ (97 ≤ c.toNat ∧ c.toNat ≤ 122)) :
    upperChar c = c := if_neg h

theorem upperChar_of_lower {c : Char} (h : 97 ≤ c.toNat ∧ c.toNat ≤ 122) :
    (upperChar c).toNat = c.toNat - 32 := by
  unfold upperChar
  rw [if_pos h]
  exact charOfNat_toNat (by omega) (by omega)

theorem upperChar_keyChar {c : Char} (h : isKeyChar c = true) :
    isKeyChar (upperChar c) = true ∧ upperChar (upperChar c) = upperChar c := by
  have hk := of_decide_eq_true h
  by_cases hl : 97 ≤ c.toNat ∧ c.toNat ≤ 122
  · have ht := upperChar_of_lower hl
    refine ⟨decide_eq_true (Or.inl ⟨by omega, by omega⟩), ?_⟩
    exact upperChar_eq_of_not_lower (by omega)
  · rw [upperChar_eq_of_not_lower hl]
    exact ⟨h, upperChar_eq_of_not_lower hl⟩

theorem norm_chars_idem (l : List Char) :
    (((l.filter isKeyChar).map upperChar).filter isKeyChar).map upperChar
      = (l.filter isKeyChar).map upperChar := by
  induction l with
  | nil => rfl
  | cons c cs ih =>
    by_cases h : isKeyChar c = true
    · obtain ⟨h1, h2⟩ := upperChar_keyChar h
      simp only [List.filter_cons, h, if_pos, List.map_cons, h1, h2, ih]
    · simp only [List.filter_cons, h, Bool.false_eq_true, if_false, ih]

/- ── Helper lemmas on the color ramp ── -/

theorem pyInt_of_nonneg {x : ℚ} (h : 0 ≤ x) : pyInt x = ⌊x⌋ := if_pos h

theorem colorNorm_nonneg {vmin vmax v : ℚ} (h : vmin ≤ v) :
    0 ≤ colorNorm vmin vmax v := by
  unfold colorNorm
  by_cases hc : vmax > vmin
  · rw [if_pos hc]
    apply div_nonneg <;> linarith
  · rw [if_neg hc]

theorem colorNorm_le_one {vmin vmax v : ℚ} (h : v ≤ vmax) :
    colorNorm vmin vmax v ≤ 1 := by
  unfold colorNorm
  by_cases hc : vmax > vmin
  · rw [if_pos hc]
    exact (div_le_one (by linarith)).mpr (by linarith)
  · rw [if_neg hc]
    norm_num

theorem colorNorm_mono {vmin vmax v1 v2 : ℚ} (h12 : v1 ≤ v2) :
    colorNorm vmin vmax v1 ≤ colorNorm vmin vmax v2 := by
  unfold colorNorm
  by_cases hc : vmax > vmin
  · rw [if_pos hc, if_pos hc]
    exact (div_le_div_iff_of_pos_right (by linarith)).mpr (by linarith)
  · rw [if_neg hc, if_neg hc]

theorem colorRed_bounds {vmin vmax v : ℚ} (h1 : vmin ≤ v) (h2 : v ≤ vmax) :
    76 ≤ colorRed vmin vmax v ∧ colorRed vmin vmax v ≤ 255 := by
  have hn : 0 ≤ colorNorm vmin vmax v := colorNorm_nonneg h1
  have ho : colorNorm vmin vmax v ≤ 1 := colorNorm_le_one h2
  rw [colorRed, pyInt_of_nonneg (by linarith)]
  constructor
  · exact Int.le_floor.mpr (by push_cast; linarith)
  · have hlt : ⌊(255:ℚ) * (3 / 10 + 7 / 10 * colorNorm vmin vmax v)⌋ < 256 :=
      Int.floor_lt.mpr (by push_cast; linarith)
    omega

theorem colorGreen_bounds {vmin vmax v : ℚ} (h1 : vmin ≤ v) (h2 : v ≤ vmax) :
    0 ≤ colorGreen vmin vmax v ∧ colorGreen vmin vmax v ≤ 204 := by
  have hn : 0 ≤ colorNorm vmin vmax v := colorNorm_nonneg h1
  have ho : colorNorm vmin vmax v ≤ 1 := colorNorm_le_one h2
  rw [colorGreen, pyInt_of_nonneg (by linarith)]
  constructor
  · exact Int.le_floor.mpr (by push_cast; linarith)
  · have hlt : ⌊(255:ℚ) * (4 / 5 - 4 / 5 * colorNorm vmin vmax v)⌋ < 205 :=
      Int.floor_lt.mpr (by push_cast; linarith)
    omega

/- ── Helper lemmas on list minima and maxima ── -/

theorem foldl_min_le_init (as : List ℚ) (a : ℚ) : as.foldl min a ≤ a := by
  induction as generalizing a with
  | nil => exact le_refl a
  | cons b bs ih => exact le_trans (ih (min a b)) (min_le_left a b)

theorem foldl_min_le_mem {x : ℚ} (as : List ℚ) (a : ℚ) (hx : x ∈ as) :
    as.foldl min a ≤ x := by
  induction as generalizing a with
  | nil => cases hx
  | cons b bs ih =>
    rcases List.mem_cons.mp hx with rfl | hx2
    · exact le_trans (foldl_min_le_init bs (min a x)) (min_le_right a x)
    · exact ih (min a b) hx2

theorem listMin_le {l : List ℚ} {m x : ℚ} (hm : listMin l = some m)
    (hx : x ∈ l) : m ≤ x := by
  cases l with
  | nil => cases hx
  | cons a as =>
    simp only [listMin, Option.some.injEq] at hm
    subst hm
    rcases List.mem_cons.mp hx with rfl | hx2
    · exact foldl_min_le_init as x
    · exact foldl_min_le_mem as a hx2

theorem le_foldl_max_init (as : List ℚ) (a : ℚ) : a ≤ as.foldl max a := by
  induction as generalizing a with
  | nil => exact le_refl a
  | cons b bs ih => exact le_trans (le_max_left a b) (ih (max a b))

theorem le_foldl_max_mem {x : ℚ} (as : List ℚ) (a : ℚ) (hx : x ∈ as) :
    x ≤ as.foldl max a := by
  induction as generalizing a with
  | nil => cases hx
  | cons b bs ih =>
    rcases List.mem_cons.mp hx with rfl | hx2
    · exact le_trans (le_max_right a x) (le_foldl_max_init bs (max a x))
    · exact ih (max a b) hx2

theorem le_listMax {l : List ℚ} {m x : ℚ} (hm : listMax l = some m)
    (hx : x ∈ l) : x ≤ m := by
  cases l with
  | nil => cases hx
  | cons a as =>
    simp only [listMax, Option.some.injEq] at hm
    subst hm
    rcases List.mem_cons.mp hx with rfl | hx2
    · exact le_foldl_max_init as x
    · exact le_foldl_max_mem as a hx2

theorem listMin_isSome_of_ne_nil {l : List ℚ} (h : l ≠ []) :
    ∃ m, listMin l = some m := by
  cases l with
  | nil => exact absurd rfl h
  | cons a as => exact ⟨as.foldl min a, rfl⟩

theorem listMax_isSome_of_ne_nil {l : List ℚ} (h : l ≠ []) :
    ∃ m, listMax l = some m := by
  cases l with
  | nil => exact absurd rfl h
  | cons a as => exact ⟨as.foldl max a, rfl⟩

/- ── Equation lemmas for the builders ── -/

theorem build_geojson_of_empty {gdf : List BoundaryRecord}
    {census : List CensusRecord} {y v : String}
    (h : filteredPairs census y v = []) : build_geojson gdf census y v = [] := by
  simp only [build_geojson, h, List.map_nil, listMin]

theorem build_geojson_of_minmax {gdf : List BoundaryRecord}
    {census : List CensusRecord} {y v : String} {vmin vmax : ℚ}
    (hmin : listMin ((filteredPairs census y v).map Prod.snd) = some vmin)
    (hmax : listMax ((filteredPairs census y v).map Prod.snd) = some vmax) :
    build_geojson gdf census y v
      = (joinRows gdf (filteredPairs census y v)).map (mkFeature vmin vmax) := by
  simp only [build_geojson, hmin, hmax]

theorem build_left_of_empty {gdf : List BoundaryRecord}
    {census : List CensusRecord} {y v : String}
    (h : filteredPairs census y v = []) :
    build_left gdf census y v = gdf.map (leftFeature (filteredPairs census y v) none) := by
  simp only [build_left, h, List.map_nil, listMin]

theorem build_left_of_minmax {gdf : List BoundaryRecord}
    {census : List CensusRecord} {y v : String} {vmin vmax : ℚ}
    (hmin : listMin ((filteredPairs census y v).map Prod.snd) = some vmin)
    (hmax : listMax ((filteredPairs census y v).map Prod.snd) = some vmax) :
    build_left gdf census y v
      = gdf.map (leftFeature (filteredPairs census y v) (some (vmin, vmax))) := by
  simp only [build_left, hmin, hmax]

theorem joinRows_mem_value {gdf : List BoundaryRecord}
    {ps : List (String × ℚ)} {bv : BoundaryRecord × ℚ}
    (h : bv ∈ joinRows gdf ps) : bv.2 ∈ ps.map Prod.snd := by
  rw [joinRows] at h
  rcases List.mem_flatMap.mp h with ⟨b, _, hmem⟩
  rcases List.mem_map.mp hmem with ⟨p, hp, rfl⟩
  exact List.mem_map.mpr ⟨p, (List.mem_filter.mp hp).1, rfl⟩

/- ── Claim theorems ── -/

/-- Claim C4: normalize is total — empty string on absent input — and
idempotent, and the three sample spellings of Thunder Bay District all
normalize to THUNDERBAYDISTRICT. -/
theorem normalize_key_spec :
    normalize_key none = "" ∧
    (∀ s : String,
      normalize_key (some (normalize_key (some s))) = normalize_key (some s)) ∧
    normalize_key (some "Thunder Bay, District") = "THUNDERBAYDISTRICT" ∧
    normalize_key (some "THUNDERBAY DISTRICT") = "THUNDERBAYDISTRICT" ∧
    normalize_key (some "thunderbaydistrict") = "THUNDERBAYDISTRICT" := by
  refine ⟨rfl, ?_, by decide, by decide, by decide⟩
  intro s
  exact congrArg String.mk (norm_chars_idem s.toList)

/-- Claim C8: with a degenerate range (min = max) the color scale is the
constant, well-defined minimum-end color [76, 204, 0, 180] for every
input value; the guard picks norm = 0 so the division is never taken. -/
theorem color_scale_degenerate :
    ∀ m v : ℚ, _make_color m m v = [76, 204, 0, 180] ∧
      _make_color m m v = min_end_color m m := by
  have hr : ∀ m w : ℚ, colorRed m m w = 76 := by
    intro m w
    rw [colorRed, colorNorm]
    norm_num [pyInt]
  have hg : ∀ m w : ℚ, colorGreen m m w = 204 := by
    intro m w
    rw [colorGreen, colorNorm]
    norm_num [pyInt]
  intro m v
  constructor
  · rw [_make_color, hr, hg]
  · rw [min_end_color, _make_color, _make_color, hr, hr, hg, hg]

/-- Claim C7: for a fixed range with min < max and values in range, the
red ramp component is monotonically non-decreasing and the green
component monotonically non-increasing in the value. -/
theorem color_components_monotone (vmin vmax v1 v2 : ℚ) (hlt : vmin < vmax)
    (ha : vmin ≤ v1) (hb : v1 < v2) (hc : v2 ≤ vmax) :
    colorRed vmin vmax v1 ≤ colorRed vmin vmax v2 ∧
    colorGreen vmin vmax v2 ≤ colorGreen vmin vmax v1 := by
  have h1n : 0 ≤ colorNorm vmin vmax v1 := colorNorm_nonneg ha
  have h2n : 0 ≤ colorNorm vmin vmax v2 := colorNorm_nonneg (by linarith)
  have h1o : colorNorm vmin vmax v1 ≤ 1 := colorNorm_le_one (by linarith)
  have h2o : colorNorm vmin vmax v2 ≤ 1 := colorNorm_le_one hc
  have hm : colorNorm vmin vmax v1 ≤ colorNorm vmin vmax v2 :=
    colorNorm_mono (le_of_lt hb)
  constructor
  · rw [colorRed, colorRed, pyInt_of_nonneg (by linarith),
      pyInt_of_nonneg (by linarith)]
    exact Int.floor_le_floor (by linarith)
  · rw [colorGreen, colorGreen, pyInt_of_nonneg (by linarith),
      pyInt_of_nonneg (by linarith)]
    exact Int.floor_le_floor (by linarith)

/-- Witness for C7 at the concrete range 0..10 with values 2 < 7. -/
theorem color_components_monotone_witness :
    colorRed 0 10 2 ≤ colorRed 0 10 7 ∧ colorGreen 0 10 7 ≤ colorGreen 0 10 2 :=
  color_components_monotone 0 10 2 7 (by norm_num) (by norm_num) (by norm_num)
    (by norm_num)

/-- Claim C10: every fill color emitted for a joined division is a
4-component RGBA list of integers with blue 0 and alpha 180, red in
76..255 and green in 0..204 (the joined values always lie in the
filtered range, so no range hypothesis is needed). -/
theorem build_fill_color_invariant (gdf : List BoundaryRecord)
    (census : List CensusRecord) (y v : String) (f : Feature)
    (hf : f ∈ build_geojson gdf census y v) :
    ∃ r g : ℤ, f.fill_color = [r, g, 0, 180] ∧
      76 ≤ r ∧ r ≤ 255 ∧ 0 ≤ g ∧ g ≤ 204 := by
  by_cases hps : filteredPairs census y v = []
  · rw [build_geojson_of_empty hps] at hf
    cases hf
  · have hne : (filteredPairs census y v).map Prod.snd ≠ [] := by
      intro hmap
      exact hps (List.map_eq_nil_iff.mp hmap)
    obtain ⟨vmin, hmin⟩ := listMin_isSome_of_ne_nil hne
    obtain ⟨vmax, hmax⟩ := listMax_isSome_of_ne_nil hne
    rw [build_geojson_of_minmax hmin hmax] at hf
    rcases List.mem_map.mp hf with ⟨bv, hbv, rfl⟩
    have hv2 := joinRows_mem_value hbv
    have hlo : vmin ≤ bv.2 := listMin_le hmin hv2
    have hhi : bv.2 ≤ vmax := le_listMax hmax hv2
    exact ⟨colorRed vmin vmax bv.2, colorGreen vmin vmax bv.2, rfl,
      (colorRed_bounds hlo hhi).1, (colorRed_bounds hlo hhi).2,
      (colorGreen_bounds hlo hhi).1, (colorGreen_bounds hlo hhi).2⟩

/-- Witness for C10 on a one-division build. -/
theorem build_fill_color_invariant_witness :
    ∃ r g : ℤ,
      (mkFeature 5 5 (⟨"A", 0, "A"⟩, 5)).fill_color = [r, g, 0, 180] ∧
      76 ≤ r ∧ r ≤ 255 ∧ 0 ≤ g ∧ g ≤ 204 := by
  refine build_fill_color_invariant (load_shapefile [⟨"A", 0⟩])
    (load_census [⟨some "A", [("POP_2011", some 5)]⟩]) "2011" "POP"
    (mkFeature 5 5 (⟨"A", 0, "A"⟩, 5)) ?_
  have hmin : listMin (((filteredPairs
      (load_census [⟨some "A", [("POP_2011", some 5)]⟩]) "2011" "POP")).map
      Prod.snd) = some 5 := by decide
  have hmax : listMax (((filteredPairs
      (load_census [⟨some "A", [("POP_2011", some 5)]⟩]) "2011" "POP")).map
      Prod.snd) = some 5 := by decide
  rw [build_geojson_of_minmax hmin hmax]
  have hj : joinRows (load_shapefile [⟨"A", 0⟩])
      (filteredPairs (load_census [⟨some "A", [("POP_2011", some 5)]⟩])
        "2011" "POP") = [(⟨"A", 0, "A"⟩, 5)] := by decide
  rw [hj]
  exact List.mem_singleton.mpr rfl

/- ── Inner-join selectivity machinery ── -/

theorem filter_key_cases {ps : List (String × ℚ)} (k : String)
    (hU : (ps.map Prod.fst).Nodup) :
    (ps.filter fun p => p.1 == k) = [] ∨
    ∃ x : ℚ, (ps.filter fun p => p.1 == k) = [(k, x)] := by
  induction ps with
  | nil => exact Or.inl rfl
  | cons q qs ih =>
    rw [List.map_cons, List.nodup_cons] at hU
    obtain ⟨hq, hU2⟩ := hU
    by_cases he : q.1 = k
    · right
      refine ⟨q.2, ?_⟩
      have hnil : (qs.filter fun p => p.1 == k) = [] := by
        rw [List.filter_eq_nil_iff]
        intro p hp hpk
        have hpk2 : p.1 = q.1 := by
          rw [he]
          exact beq_iff_eq.mp hpk
        exact hq (List.mem_map.mpr ⟨p, hp, hpk2⟩)
      rw [List.filter_cons, if_pos (by simp [he]), hnil, ← he]
    · have hne : (q.1 == k) = false := beq_eq_false_iff_ne.mpr he
      rw [List.filter_cons, hne]
      simpa using ih hU2

theorem joinRows_fst {ps : List (String × ℚ)} (hU : (ps.map Prod.fst).Nodup)
    (gdf : List BoundaryRecord) :
    (joinRows gdf ps).map Prod.fst
      = gdf.filter fun b => ps.any fun p => p.1 == b.join_key := by
  induction gdf with
  | nil => rfl
  | cons b gdf ih =>
    rw [joinRows, List.flatMap_cons, List.map_append, List.filter_cons]
    rw [joinRows] at ih
    rcases filter_key_cases b.join_key hU with hnil | ⟨x, hone⟩
    · have hany : (ps.any fun p => p.1 == b.join_key) = false := by
        rw [List.any_eq_false]
        exact List.filter_eq_nil_iff.mp hnil
      rw [hnil, hany, ih]
      simp
    · have hmem : (b.join_key, x) ∈ ps := by
        have hself : (b.join_key, x) ∈ ps.filter fun p => p.1 == b.join_key := by
          rw [hone]
          exact List.mem_singleton.mpr rfl
        exact List.mem_of_mem_filter hself
      have hany : (ps.any fun p => p.1 == b.join_key) = true := by
        rw [List.any_eq_true]
        exact ⟨(b.join_key, x), hmem, by simp⟩
      rw [hone, hany, ih]
      simp

/-- Claim C2: in inner mode the output features are exactly the boundary
records whose join key has a present census value for the selection
(one feature per such record, in boundary order), and the feature count
equals the size of that intersection.  The hypothesis is the data-model
uniqueness of (join_key, year, variable) on the filtered set. -/
theorem inner_join_selectivity (gdf : List BoundaryRecord)
    (census : List CensusRecord) (y v : String)
    (hU : ((filteredPairs census y v).map Prod.fst).Nodup) :
    (build_geojson gdf census y v).map
        (fun f => (f.Municipality_Clean, f.geometry))
      = (gdf.filter fun b =>
          (filteredPairs census y v).any fun p => p.1 == b.join_key).map
          (fun b => (b.Municipality_Clean, b.geometry)) ∧
    (build_geojson gdf census y v).length
      = (gdf.filter fun b =>
          (filteredPairs census y v).any fun p => p.1 == b.join_key).length := by
  have hmain : (build_geojson gdf census y v).map
      (fun f => (f.Municipality_Clean, f.geometry))
      = (gdf.filter fun b =>
          (filteredPairs census y v).any fun p => p.1 == b.join_key).map
          (fun b => (b.Municipality_Clean, b.geometry)) := by
    by_cases hps : filteredPairs census y v = []
    · rw [build_geojson_of_empty hps, hps]
      simp
    · have hne : (filteredPairs census y v).map Prod.snd ≠ [] := by
        intro hmap
        exact hps (List.map_eq_nil_iff.mp hmap)
      obtain ⟨vmin, hmin⟩ := listMin_isSome_of_ne_nil hne
      obtain ⟨vmax, hmax⟩ := listMax_isSome_of_ne_nil hne
      rw [build_geojson_of_minmax hmin hmax]
      have h2 : ((joinRows gdf (filteredPairs census y v)).map
            (mkFeature vmin vmax)).map
            (fun f => (f.Municipality_Clean, f.geometry))
          = ((joinRows gdf (filteredPairs census y v)).map Prod.fst).map
            (fun b => (b.Municipality_Clean, b.geometry)) := by
        rw [List.map_map, List.map_map]
        rfl
      rw [h2, joinRows_fst hU gdf]
  refine ⟨hmain, ?_⟩
  have hlen := congrArg List.length hmain
  simpa using hlen

/-- Witness for C2: one matching and one unmatched division. -/
theorem inner_join_selectivity_witness :
    (build_geojson (load_shapefile [⟨"A", 0⟩, ⟨"C", 2⟩])
        (load_census [⟨some "A", [("POP_2011", some 5)]⟩]) "2011" "POP").map
        (fun f => (f.Municipality_Clean, f.geometry))
      = ((load_shapefile [⟨"A", 0⟩, ⟨"C", 2⟩]).filter fun b =>
          (filteredPairs (load_census [⟨some "A", [("POP_2011", some 5)]⟩])
            "2011" "POP").any fun p => p.1 == b.join_key).map
          (fun b => (b.Municipality_Clean, b.geometry)) ∧
    (build_geojson (load_shapefile [⟨"A", 0⟩, ⟨"C", 2⟩])
        (load_census [⟨some "A", [("POP_2011", some 5)]⟩]) "2011" "POP").length
      = ((load_shapefile [⟨"A", 0⟩, ⟨"C", 2⟩]).filter fun b =>
          (filteredPairs (load_census [⟨some "A", [("POP_2011", some 5)]⟩])
            "2011" "POP").any fun p => p.1 == b.join_key).length :=
  inner_join_selectivity (load_shapefile [⟨"A", 0⟩, ⟨"C", 2⟩])
    (load_census [⟨some "A", [("POP_2011", some 5)]⟩]) "2011" "POP" (by decide)

/- ── Left-join mode (spec-modelled) ── -/

theorem make_color_ne_noData (vmin vmax v : ℚ) :
    _make_color vmin vmax v ≠ noDataColor := by
  simp [_make_color, noDataColor]

/-- Claim C1: joinMode is offered as a configuration choice (inner mode
is the source builder); in left mode the output has exactly one feature
per boundary record, in order, carrying the boundary's geometry and
name, with the no-data sentinel fill color exactly where no matching
present census value exists for the selection. -/
theorem left_join_completeness (gdf : List BoundaryRecord)
    (census : List CensusRecord) (y v : String) :
    build_with_mode JoinMode.inner gdf census y v = build_geojson gdf census y v ∧
    (build_with_mode JoinMode.left gdf census y v).length = gdf.length ∧
    List.Forall₂ (fun (b : BoundaryRecord) (f : Feature) =>
      f.geometry = b.geometry ∧ f.Municipality_Clean = b.Municipality_Clean ∧
      (f.fill_color = noDataColor ↔
        ∀ p ∈ filteredPairs census y v, p.1 ≠ b.join_key)) gdf
      (build_with_mode JoinMode.left gdf census y v) := by
  have hbm : build_with_mode JoinMode.left gdf census y v
      = build_left gdf census y v := rfl
  by_cases hps : filteredPairs census y v = []
  · have hb : build_with_mode JoinMode.left gdf census y v
        = gdf.map (leftFeature (filteredPairs census y v) none) := by
      rw [hbm, build_left_of_empty hps]
    refine ⟨rfl, by rw [hb, List.length_map], ?_⟩
    rw [hb, List.forall₂_map_right_iff, List.forall₂_same]
    intro b _
    refine ⟨rfl, rfl, ?_⟩
    constructor
    · intro _ p hp
      rw [hps] at hp
      cases hp
    · intro _
      rfl
  · have hne : (filteredPairs census y v).map Prod.snd ≠ [] := by
      intro hmap
      exact hps (List.map_eq_nil_iff.mp hmap)
    obtain ⟨vmin, hmin⟩ := listMin_isSome_of_ne_nil hne
    obtain ⟨vmax, hmax⟩ := listMax_isSome_of_ne_nil hne
    have hb : build_with_mode JoinMode.left gdf census y v
        = gdf.map (leftFeature (filteredPairs census y v) (some (vmin, vmax))) := by
      rw [hbm, build_left_of_minmax hmin hmax]
    refine ⟨rfl, by rw [hb, List.length_map], ?_⟩
    rw [hb, List.forall₂_map_right_iff, List.forall₂_same]
    intro b _
    cases hh : ((filteredPairs census y v).filter
        fun p => p.1 == b.join_key).head? with
    | none =>
      have hfe : leftFeature (filteredPairs census y v) (some (vmin, vmax)) b
          = noDataFeature b := by
        simp [leftFeature, hh]
      rw [hfe]
      refine ⟨rfl, rfl, ?_⟩
      have hnil : (filteredPairs census y v).filter
          (fun p => p.1 == b.join_key) = [] := List.head?_eq_none_iff.mp hh
      constructor
      · intro _ p hp hpk
        have hmemf : p ∈ (filteredPairs census y v).filter
            (fun p => p.1 == b.join_key) :=
          List.mem_filter.mpr ⟨hp, by simp [hpk]⟩
        rw [hnil] at hmemf
        cases hmemf
      · intro _
        rfl
    | some p =>
      have hfe : leftFeature (filteredPairs census y v) (some (vmin, vmax)) b
          = { geometry := b.geometry
              Municipality_Clean := b.Municipality_Clean
              value_fmt := fmtThousands (pyInt p.2)
              fill_color := _make_color vmin vmax p.2 } := by
        simp [leftFeature, hh]
      rw [hfe]
      refine ⟨rfl, rfl, ?_⟩
      have hpf : p ∈ (filteredPairs census y v).filter
          (fun p => p.1 == b.join_key) := List.mem_of_mem_head? hh
      have hpmem := (List.mem_filter.mp hpf).1
      have hpkey : p.1 = b.join_key := beq_iff_eq.mp (List.mem_filter.mp hpf).2
      constructor
      · intro hcol
        exact absurd hcol (make_color_ne_noData vmin vmax p.2)
      · intro hall
        exact absurd hpkey (hall p hpmem)

/- ── Reshape (melt) correctness ── -/

/-- Claim C5: the melt derives from every wide cell one long record with
the year and variable split on the trailing 4-digit suffix, and on the
sample row X with POPULATION_2011=100, POPULATION_2016=120 the result is
exactly the two expected records. -/
theorem reshape_correctness :
    (∀ (rows : List WideRow) (row : WideRow) (cv : String × Option ℚ),
      row ∈ rows → cv ∈ row.cols →
      meltRecord (normalize_key row.join_key) cv ∈ load_census rows) ∧
    load_census [⟨some "X", [("POPULATION_2011", some 100),
        ("POPULATION_2016", some 120)]⟩]
      = [⟨"X", some "2011", "POPULATION", some 100⟩,
         ⟨"X", some "2016", "POPULATION", some 120⟩] := by
  constructor
  · intro rows row cv h1 h2
    rw [load_census]
    exact List.mem_flatMap.mpr ⟨row, h1, List.mem_map_of_mem _ h2⟩
  · decide

/-- Witness for C5: the first sample cell melts into the sample table. -/
theorem reshape_correctness_witness :
    meltRecord (normalize_key (some "X")) ("POPULATION_2011", some 100) ∈
      load_census [⟨some "X", [("POPULATION_2011", some 100),
        ("POPULATION_2016", some 120)]⟩] :=
  reshape_correctness.1
    [⟨some "X", [("POPULATION_2011", some 100), ("POPULATION_2016", some 120)]⟩]
    ⟨some "X", [("POPULATION_2011", some 100), ("POPULATION_2016", some 120)]⟩
    ("POPULATION_2011", some 100) (List.mem_singleton.mpr rfl) (by decide)

/- ── Malformed column names ── -/

theorem splitYearSuffix_snd_of_none {name : String}
    (h : (splitYearSuffix name).1 = none) : (splitYearSuffix name).2 = name := by
  unfold splitYearSuffix at h ⊢
  by_cases hc : 5 ≤ name.toList.length ∧
      (name.toList.drop (name.toList.length - 5)).head? = some '_' ∧
      ((name.toList.drop (name.toList.length - 5)).drop 1).all isDigitChar
  · rw [if_pos hc] at h
    cases h
  · rw [if_neg hc]

/-- Claim C6: a data column whose name does not match the trailing-year
pattern is classified with an absent year — the variable part keeps the
whole column name, so no corrupted variable/year split occurs — and no
record derived from it matches any selected year, hence it is never
selectable as a valid (year, variable) pair. -/
theorem malformed_column_never_selectable (rows : List WideRow) (row : WideRow)
    (cv : String × Option ℚ) (h1 : row ∈ rows) (h2 : cv ∈ row.cols)
    (h3 : (splitYearSuffix cv.1).1 = none) :
    (meltRecord (normalize_key row.join_key) cv).year = none ∧
    (meltRecord (normalize_key row.join_key) cv).variable_name = cv.1 ∧
    meltRecord (normalize_key row.join_key) cv ∈ load_census rows ∧
    (∀ y : String,
      meltRecord (normalize_key row.join_key) cv ∉
        (load_census rows).filter fun r => r.year = some y) := by
  refine ⟨h3, splitYearSuffix_snd_of_none h3, ?_, ?_⟩
  · rw [load_census]
    exact List.mem_flatMap.mpr ⟨row, h1, List.mem_map_of_mem _ h2⟩
  · intro y hmem
    have hy := of_decide_eq_true (List.mem_filter.mp hmem).2
    rw [show (meltRecord (normalize_key row.join_key) cv).year
        = (splitYearSuffix cv.1).1 from rfl, h3] at hy
    cases hy

/-- Witness for C6 on the malformed column name NOTES. -/
theorem malformed_column_never_selectable_witness :
    (meltRecord (normalize_key (some "X")) ("NOTES", some 5)).year = none ∧
    (meltRecord (normalize_key (some "X")) ("NOTES", some 5)).variable_name
      = "NOTES" ∧
    meltRecord (normalize_key (some "X")) ("NOTES", some 5) ∈
      load_census [⟨some "X", [("NOTES", some 5)]⟩] ∧
    (∀ y : String,
      meltRecord (normalize_key (some "X")) ("NOTES", some 5) ∉
        (load_census [⟨some "X", [("NOTES", some 5)]⟩]).filter
          fun r => r.year = some y) :=
  malformed_column_never_selectable [⟨some "X", [("NOTES", some 5)]⟩]
    ⟨some "X", [("NOTES", some 5)]⟩ ("NOTES", some 5)
    (List.mem_singleton.mpr rfl) (by decide) (by decide)

/- ── Variable-selection fallback ── -/

theorem head?_mem_of_ne_nil {l : List String} (h : l ≠ []) :
    ∃ a, l.head? = some a ∧ a ∈ l := by
  cases l with
  | nil => exact absurd rfl h
  | cons a as => exact ⟨a, rfl, List.mem_cons_self a as⟩

/-- Claim C9: when the selected year's variable list is nonempty, the
sticky-variable fallback always selects a member of that list, and a
previously selected variable that is no longer available is reset to
the first available variable. -/
theorem variable_selection_fallback (census : List CensusRecord) (y : String)
    (prev : Option (Option String)) (h : vars_for_year census y ≠ []) :
    (∃ w, select_variable prev (vars_for_year census y) = some w ∧
      w ∈ vars_for_year census y) ∧
    (∀ pv : String, prev = some (some pv) → pv ∉ vars_for_year census y →
      select_variable prev (vars_for_year census y)
        = (vars_for_year census y).head?) := by
  obtain ⟨a, ha, hamem⟩ := head?_mem_of_ne_nil h
  constructor
  · match prev with
    | none =>
      simp only [select_variable, ha]
      rw [if_pos hamem]
      exact ⟨a, rfl, hamem⟩
    | some none =>
      simp only [select_variable, ha]
      exact ⟨a, rfl, hamem⟩
    | some (some x) =>
      by_cases hx : x ∈ vars_for_year census y
      · simp only [select_variable]
        rw [if_pos hx]
        exact ⟨x, rfl, hx⟩
      · simp only [select_variable]
        rw [if_neg hx, ha]
        exact ⟨a, rfl, hamem⟩
  · intro pv hpv hnot
    subst hpv
    simp only [select_variable]
    rw [if_neg hnot]

/-- Witness for C9: selecting year 2016 invalidates the variable POP and
falls back to the first available variable AREA. -/
theorem variable_selection_fallback_witness :
    (∃ w, select_variable (some (some "POP"))
        (vars_for_year (load_census [⟨some "X",
          [("POP_2011", some 1), ("AREA_2016", some 2)]⟩]) "2016") = some w ∧
      w ∈ vars_for_year (load_census [⟨some "X",
          [("POP_2011", some 1), ("AREA_2016", some 2)]⟩]) "2016") ∧
    (∀ pv : String, some (some "POP") = some (some pv) →
      pv ∉ vars_for_year (load_census [⟨some "X",
          [("POP_2011", some 1), ("AREA_2016", some 2)]⟩]) "2016" →
      select_variable (some (some "POP"))
        (vars_for_year (load_census [⟨some "X",
          [("POP_2011", some 1), ("AREA_2016", some 2)]⟩]) "2016")
        = (vars_for_year (load_census [⟨some "X",
          [("POP_2011", some 1), ("AREA_2016", some 2)]⟩]) "2016").head?) :=
  variable_selection_fallback
    (load_census [⟨some "X", [("POP_2011", some 1), ("AREA_2016", some 2)]⟩])
    "2016" (some (some "POP")) (by decide)

/- ── End-to-end scenario ── -/

theorem pyInt_fifty : pyInt 50 = 50 := by norm_num [pyInt]

theorem pyInt_onefifty : pyInt 150 = 150 := by norm_num [pyInt]

theorem colorRed_lo : colorRed 50 150 50 = 76 := by
  rw [colorRed, colorNorm]
  norm_num [pyInt]

theorem colorGreen_lo : colorGreen 50 150 50 = 204 := by
  rw [colorGreen, colorNorm]
  norm_num [pyInt]

theorem colorRed_hi : colorRed 50 150 150 = 255 := by
  rw [colorRed, colorNorm]
  norm_num [pyInt]

theorem colorGreen_hi : colorGreen 50 150 150 = 0 := by
  rw [colorGreen, colorNorm]
  norm_num [pyInt]

/-- Claim C3: on the two-division sample (A with POPULATION_2011 = 50,
B with 150), selecting year 2011 and variable POPULATION yields the
value range (50, 150); division A gets the scale's minimum-end color,
division B the maximum-end color, with formatted values 50 and 150. -/
theorem end_to_end_scenario :
    legend_bounds (load_census [⟨some "A", [("POPULATION_2011", some 50)]⟩,
        ⟨some "B", [("POPULATION_2011", some 150)]⟩]) "2011" "POPULATION"
      = (some 50, some 150) ∧
    build_geojson (load_shapefile [⟨"A", 0⟩, ⟨"B", 1⟩])
        (load_census [⟨some "A", [("POPULATION_2011", some 50)]⟩,
          ⟨some "B", [("POPULATION_2011", some 150)]⟩]) "2011" "POPULATION"
      = [⟨0, "A", "50", min_end_color 50 150⟩,
         ⟨1, "B", "150", max_end_color 50 150⟩] ∧
    min_end_color 50 150 = [76, 204, 0, 180] ∧
    max_end_color 50 150 = [255, 0, 0, 180] := by
  have hps : filteredPairs (load_census [⟨some "A", [("POPULATION_2011", some 50)]⟩,
      ⟨some "B", [("POPULATION_2011", some 150)]⟩]) "2011" "POPULATION"
      = [("A", 50), ("B", 150)] := by decide
  have hvals : (filteredPairs (load_census [⟨some "A",
      [("POPULATION_2011", some 50)]⟩,
      ⟨some "B", [("POPULATION_2011", some 150)]⟩]) "2011" "POPULATION").map
      Prod.snd = [50, 150] := by
    rw [hps]
    rfl
  have hmin : listMin ((filteredPairs (load_census [⟨some "A",
      [("POPULATION_2011", some 50)]⟩,
      ⟨some "B", [("POPULATION_2011", some 150)]⟩]) "2011" "POPULATION").map
      Prod.snd) = some 50 := by
    rw [hvals]
    simp only [listMin, List.foldl, Option.some.injEq]
    norm_num [min_def]
  have hmax : listMax ((filteredPairs (load_census [⟨some "A",
      [("POPULATION_2011", some 50)]⟩,
      ⟨some "B", [("POPULATION_2011", some 150)]⟩]) "2011" "POPULATION").map
      Prod.snd) = some 150 := by
    rw [hvals]
    simp only [listMax, List.foldl, Option.some.injEq]
    norm_num [max_def]
  refine ⟨?_, ?_, ?_, ?_⟩
  · simp only [legend_bounds]
    rw [hmin, hmax]
  · rw [build_geojson_of_minmax hmin hmax]
    have hjoin : joinRows (load_shapefile [⟨"A", 0⟩, ⟨"B", 1⟩])
        (filteredPairs (load_census [⟨some "A", [("POPULATION_2011", some 50)]⟩,
          ⟨some "B", [("POPULATION_2011", some 150)]⟩]) "2011" "POPULATION")
        = [(⟨"A", 0, "A"⟩, 50), (⟨"B", 1, "B"⟩, 150)] := by decide
    rw [hjoin, List.map_cons, List.map_cons, List.map_nil]
    have hfmt50 : fmtThousands (pyInt 50) = "50" := by
      rw [pyInt_fifty]
      decide
    have hfmt150 : fmtThousands (pyInt 150) = "150" := by
      rw [pyInt_onefifty]
      decide
    simp only [mkFeature, min_end_color, max_end_color, _make_color]
    rw [hfmt50, hfmt150]
  · rw [min_end_color, _make_color, colorRed_lo, colorGreen_lo]
  · rw [max_end_color, _make_color, colorRed_hi, colorGreen_hi]

end AgDashboard
